import Mathlib

/-!
# A shallow embedding of the CirrusSync transfer engine
  (src/src-tauri/src/file_transfer.rs)

The Rust transfer engine is translated into pure Lean functions over an
explicit `TransferQueue` state.  External effects (Tauri event emission,
oneshot-channel registration, network calls, filesystem access) are made
observable: emissions and channel registrations become entries of an
`Event` trace, and the outcomes of external interactions (filesystem
checks, negotiation replies, per-attempt upload results) are supplied by
an environment record, so each Rust function becomes a function
`state → state × trace × result`.

Rust `HashSet<String>` / `HashMap<String, V>` fields are embedded as
lists with membership-checking insert/remove/lookup helpers; `Instant`
timestamps become `Nat`; paths are the Rust `String` paths with
`Path::parent` modelled on `/`-separated components.
-/

namespace CirrusSync

/-- Set-style insert on a list (models `HashSet::insert`). -/
def insertS (x : String) (s : List String) : List String :=
  if x ∈ s then s else x :: s

/-- Set-style remove on a list (models `HashSet::remove`). -/
def removeS (x : String) (s : List String) : List String :=
  s.filter (fun y => y ≠ x)

/-- Map-style insert-or-overwrite (models `HashMap::insert`). -/
def insertM (k v : String) (m : List (String × String)) : List (String × String) :=
  (k, v) :: m.filter (fun p => p.1 ≠ k)

/-- Map lookup (models `HashMap::get`). -/
def lookupM (k : String) (m : List (String × String)) : Option String :=
  (m.find? (fun p => p.1 = k)).map (·.2)

/-- Timestamp-map insert (models `HashMap<String, Instant>::insert`). -/
def insertTS (k : String) (t : Nat) (m : List (String × Nat)) : List (String × Nat) :=
  (k, t) :: m.filter (fun p => p.1 ≠ k)

/-- Timestamp-map remove. -/
def removeTS (k : String) (m : List (String × Nat)) : List (String × Nat) :=
  m.filter (fun p => p.1 ≠ k)

/-- Keys of a string-to-string map. -/
def keysM (m : List (String × String)) : List String := m.map (·.1)

/-- Character-list version of "is a prefix of" (executable). -/
def listHasLead : List Char → List Char → Bool
  | [], _ => true
  | _ :: _, [] => false
  | a :: as, b :: bs => a == b && listHasLead as bs

/-- `strStartsWith s pat` : `pat` occurs at the start of `s`
(models Rust `str::starts_with`). -/
def strStartsWith (s pat : String) : Bool :=
  listHasLead pat.data s.data

/-- Auxiliary scan for substring containment. -/
def strContainsAux (pat : List Char) : List Char → Bool
  | [] => listHasLead pat []
  | l@(_ :: rest) => listHasLead pat l || strContainsAux pat rest

/-- `strContains s pat` : `pat` occurs somewhere inside `s`
(models Rust `str::contains`). -/
def strContains (s pat : String) : Bool :=
  strContainsAux pat.data s.data

/-- Splits a character list into its `/`-separated components. -/
def splitSlashAux : List Char → List Char → List (List Char)
  | [], acc => [acc.reverse]
  | c :: cs, acc =>
    if c == '/' then acc.reverse :: splitSlashAux cs []
    else splitSlashAux cs (c :: acc)

/-- Rejoins components with `/` separators. -/
def joinSlash : List (List Char) → List Char
  | [] => []
  | [x] => x
  | x :: xs => x ++ '/' :: joinSlash xs

/-- `Path::new(s).parent()` with `unwrap_or_default`, modelled on
`/`-separated components: drop the last component.  (For a bare
root-child like `"/a"` the Rust parent is `"/"` while this model gives
`""`; the development only relies on paths of the form `dir ++ "/" ++
name` with a non-empty multi-component `dir`, where the two agree.) -/
def parentPathStr (s : String) : String :=
  String.mk (joinSlash ((splitSlashAux s.data []).dropLast))

/-- `QueueItem` (file_transfer.rs lines 28-37). -/
structure QueueItem where
  item_type : String
  id : String
  path : String
  name : String
  parent_id : String
  depth : Nat
deriving DecidableEq

/-- A presigned block-upload URL (lines 40-46). -/
structure PresignedUrl where
  url : String
  block_id : String
  index : Nat
  expires_in : Nat
deriving DecidableEq

/-- Thumbnail upload info inside an upload-URLs response (lines 60-66). -/
structure ThumbnailInfo where
  id : String
  url : String
deriving DecidableEq

/-- An upload-URLs response (lines 49-58).  The base64 `content_key`
field is embedded post-decoding: `content_key_bytes = none` models a
base64 decode failure, `some bs` the decoded raw bytes. -/
structure UploadUrlsResponse where
  file_id : String
  revision_id : String
  total_blocks : Nat
  block_size : Nat
  upload_urls : List PresignedUrl
  content_key_bytes : Option (List Nat)
  thumbnail : Option ThumbnailInfo
deriving DecidableEq

/-- The shared `TransferQueue` state (lines 104-131).  `Instant`s are
`Nat` instants; hash sets/maps are lists via the helpers above. -/
structure TransferQueue where
  items : List QueueItem
  processing : Option String
  completed : List String
  failed : List (String × String)
  folder_id_map : List (String × String)
  paused : Bool
  start_time : Nat
  initialized_files : List String
  initialized_folders : List String
  completion_notifications_sent : List String
  block_completion_sent : List String
  received_url_responses : List String
  received_folder_responses : List String
  original_share_id : Option String
  request_timestamps : List (String × Nat)
  pending_folders : List String
deriving DecidableEq

/-- `TransferQueue::new` (lines 144-163). -/
def TransferQueue.new (now : Nat) : TransferQueue :=
  { items := []
    processing := none
    completed := []
    failed := []
    folder_id_map := []
    paused := false
    start_time := now
    initialized_files := []
    initialized_folders := []
    completion_notifications_sent := []
    block_completion_sent := []
    received_url_responses := []
    received_folder_responses := []
    original_share_id := none
    request_timestamps := []
    pending_folders := [] }

/-- Observable side effects of the engine: every `app.emit` call becomes
an event, and insertion of a oneshot sender into `RESPONSE_CHANNELS` /
`FOLDER_RESPONSE_CHANNELS` becomes a `registerUrlSlot` /
`registerFolderSlot` pseudo-event, so that the relative order of slot
registration and request emission is part of the trace. -/
inductive Event where
  | transferProgress (id status : String)
  | initFileUpload (id name parent_id share_id : String) (size : Nat)
  | createFolder (id name parent_id share_id : String)
  | registerUrlSlot (id : String)
  | registerFolderSlot (id : String)
  | blockComplete (block_id : String) (index : Nat) (file_id : String)
  | thumbnailComplete (thumbnail_id : String)
  | finalizeTransfer (id file_id : String)
  | transferComplete (id name status message : String)
deriving DecidableEq

/-! ## Queue commands -/

/-- `cancel_transfer` (lines 320-359): if the id is the current
processing item, clear the slot; otherwise drop it from the queue.
Either way record "Cancelled by user" in `failed` and clear all per-id
tracking. -/
def cancel_transfer (id : String) (q : TransferQueue) : TransferQueue :=
  if q.processing = some id then
    { q with
      processing := none
      failed := insertM id "Cancelled by user" q.failed
      initialized_files := removeS id q.initialized_files
      initialized_folders := removeS id q.initialized_folders
      completion_notifications_sent := removeS id q.completion_notifications_sent
      received_url_responses := removeS id q.received_url_responses
      received_folder_responses := removeS id q.received_folder_responses
      request_timestamps := removeTS id q.request_timestamps }
  else
    { q with
      items := q.items.filter (fun item => item.id ≠ id)
      failed := insertM id "Cancelled by user" q.failed
      initialized_files := removeS id q.initialized_files
      initialized_folders := removeS id q.initialized_folders
      completion_notifications_sent := removeS id q.completion_notifications_sent
      received_url_responses := removeS id q.received_url_responses
      received_folder_responses := removeS id q.received_folder_responses
      request_timestamps := removeTS id q.request_timestamps }

/-- One per-id cleanup pass of `cancel_all_transfers` (body of its two
loops, lines 367-395). -/
def cancelCleanupId (q : TransferQueue) (id : String) : TransferQueue :=
  { q with
    failed := insertM id "Cancelled by user" q.failed
    initialized_files := removeS id q.initialized_files
    initialized_folders := removeS id q.initialized_folders
    completion_notifications_sent := removeS id q.completion_notifications_sent
    received_url_responses := removeS id q.received_url_responses
    received_folder_responses := removeS id q.received_folder_responses
    request_timestamps := removeTS id q.request_timestamps }

/-- `cancel_all_transfers` (lines 363-401): fail the processing item,
fail and clear every queued item, clear `pending_folders` and
`block_completion_sent`. -/
def cancel_all_transfers (q : TransferQueue) : TransferQueue :=
  let q₁ :=
    match q.processing with
    | some pid => cancelCleanupId { q with processing := none } pid
    | none => q
  let item_ids := q₁.items.map (·.id)
  let q₂ := { q₁ with items := [], pending_folders := [] }
  let q₃ := item_ids.foldl cancelCleanupId q₂
  { q₃ with block_completion_sent := [] }

/-- `finalize_transfer_complete` (lines 453-575), minus its tail call to
`process_next_item` (continuation steps are modelled separately).  If the
id is already in `completed` it returns with no state change and no
event; otherwise it emits one terminal `transfer-complete` event (status
"completed" whether or not `success` holds), marks the id completed,
clears the processing slot and all per-id tracking, and drops block keys
prefixed by `file_id ++ ":"`. -/
def finalize_transfer_complete (q : TransferQueue) (transfer_id file_id : String)
    (success : Bool) (error : Option String) : TransferQueue × List Event :=
  if transfer_id ∈ q.completed then (q, [])
  else
    let item_name := (((q.items.find? (fun item => item.id = transfer_id)).map (·.name)).getD "Unknown")
    let q₁ := { q with request_timestamps := removeTS transfer_id q.request_timestamps }
    let ev :=
      if success then
        Event.transferComplete transfer_id item_name "completed" "Upload complete and verified"
      else
        Event.transferComplete transfer_id item_name "completed"
          ("Upload complete, but verification failed: " ++ error.getD "Content update failed")
    let q₂ :=
      { q₁ with
        processing := none
        completed := insertS transfer_id q₁.completed
        initialized_files := removeS transfer_id q₁.initialized_files
        initialized_folders := removeS transfer_id q₁.initialized_folders
        completion_notifications_sent := removeS transfer_id q₁.completion_notifications_sent
        received_url_responses := removeS transfer_id q₁.received_url_responses
        received_folder_responses := removeS transfer_id q₁.received_folder_responses
        block_completion_sent :=
          q₁.block_completion_sent.filter (fun key => !strStartsWith key (file_id ++ ":")) }
    (q₂, [ev])

/-- The enqueue step shared by `select_files` / `select_folders`
(lines 240-253 and 300-314): record the share id and append the
validated items. -/
def selectEnqueue (q : TransferQueue) (its : List QueueItem) (share_id : String) :
    TransferQueue :=
  { q with original_share_id := some share_id, items := q.items ++ its }

/-- `handle_file_error` (lines 1863-1913): clear the processing slot,
record the failure, drop the file-side tracking for the id, and emit the
failure progress and terminal events. -/
def handle_file_error (q : TransferQueue) (id name : String) (error : String) :
    TransferQueue × List Event :=
  ({ q with
      processing := none
      failed := insertM id error q.failed
      initialized_files := removeS id q.initialized_files
      completion_notifications_sent := removeS id q.completion_notifications_sent
      received_url_responses := removeS id q.received_url_responses
      request_timestamps := removeTS id q.request_timestamps },
   [Event.transferProgress id "failed",
    Event.transferComplete id name "failed" error])

/-- `handle_folder_error` (lines 1916-1965). -/
def handle_folder_error (q : TransferQueue) (id name : String) (error : String) :
    TransferQueue × List Event :=
  ({ q with
      processing := none
      failed := insertM id error q.failed
      initialized_folders := removeS id q.initialized_folders
      completion_notifications_sent := removeS id q.completion_notifications_sent
      received_folder_responses := removeS id q.received_folder_responses
      request_timestamps := removeTS id q.request_timestamps },
   [Event.transferProgress id "failed",
    Event.transferComplete id name "failed" error])

/-! ## The dequeue step of `process_next_item` -/

/-- An item may be taken by the forward scan unless it is a file whose
parent directory path is still in `pending_folders`
(loop body, lines 664-681). -/
def scanTake (pending : List String) (item : QueueItem) : Bool :=
  !(item.item_type == "file" && pending.contains (parentPathStr item.path))

/-- The forward scan of lines 661-696: find the first item the scan may
take and remove it from its position, keeping the relative order of the
rest.  Returns `(prefix of skipped items, chosen item, suffix)`; the
remaining queue is `prefix ++ suffix`.  (The Rust code computes the same
split with `findIdx` over the queue followed by `Vec::remove` at that
index.) -/
def scanSplit (pending : List String) :
    List QueueItem → Option (List QueueItem × QueueItem × List QueueItem)
  | [] => none
  | item :: rest =>
    if scanTake pending item then some ([], item, rest)
    else
      match scanSplit pending rest with
      | none => none
      | some (pre, chosen, post) => some (item :: pre, chosen, post)

/-- The item-selection step of `process_next_item` (lines 635-706),
given that the queue is not paused and nothing is processing: pop a
head folder unconditionally; pop a head file whose parent path is not
pending; otherwise scan forward, and if the scanned choice is a folder
insert its path into `pending_folders`.  Returns the chosen item and
the updated state, or `none` when nothing is ready. -/
def dequeueNext (q : TransferQueue) : Option (QueueItem × TransferQueue) :=
  match q.items with
  | [] => none
  | first :: rest =>
    if first.item_type = "folder" then some (first, { q with items := rest })
    else
      let parent_path := parentPathStr first.path
      if parent_path ∈ q.pending_folders then
        match scanSplit q.pending_folders q.items with
        | none => none
        | some (pre, chosen, post) =>
          let pending' :=
            if chosen.item_type = "folder" then insertS chosen.path q.pending_folders
            else q.pending_folders
          some (chosen, { q with items := pre ++ post, pending_folders := pending' })
      else some (first, { q with items := rest })

/-- The hanging-request sweep at the top of `process_next_item`
(lines 599-629): entries of `request_timestamps` older than 35 seconds
are resolved with a timeout error on their channels and their
response-tracking flags are cleared.  `sweepId` is the loop body. -/
def sweepId (acc : TransferQueue) (id : String) : TransferQueue :=
  { acc with
    request_timestamps := removeTS id acc.request_timestamps
    received_url_responses := removeS id acc.received_url_responses
    received_folder_responses := removeS id acc.received_folder_responses }

/-- The fold of `sweepId` over the stale ids of `process_next_item`. -/
def sweepStale (q : TransferQueue) (now : Nat) : TransferQueue :=
  let ids := ((q.request_timestamps.filter (fun p => 35 < now - p.2)).map (·.1))
  ids.foldl sweepId q

/-- Per-id cleanup of `cleanup_stuck_transfers` (loop at lines
2201-2216): clear tracking, clear the processing slot if it matches, and
record a timeout failure. -/
def cleanupStuckId (acc : TransferQueue) (id : String) : TransferQueue :=
  { acc with
    request_timestamps := removeTS id acc.request_timestamps
    received_url_responses := removeS id acc.received_url_responses
    received_folder_responses := removeS id acc.received_folder_responses
    processing := if acc.processing = some id then none else acc.processing
    failed := insertM id "Request timed out" acc.failed }

/-- `cleanup_stuck_transfers` (lines 2176-2296), minus its channel sends
and tail call to `process_next_item`: fail every request older than 35
seconds; then (re-scanning `request_timestamps`, which the first pass
just emptied of stale entries, so this second list is empty — as in the
source, lines 2242-2250) release the pending-folder path of any matching
queued item (`releasePendingFor`, the loop of lines 2267-2278). -/
def releasePendingFor (acc : TransferQueue) (id : String) : TransferQueue :=
  match acc.items.find? (fun item => item.id = id) with
  | some item => { acc with pending_folders := removeS item.path acc.pending_folders }
  | none => acc

/-- The two passes of `cleanup_stuck_transfers` assembled. -/
def cleanup_stuck_transfers (q : TransferQueue) (now : Nat) : TransferQueue :=
  let hanging := ((q.request_timestamps.filter (fun p => 35 < now - p.2)).map (·.1))
  let q₁ := hanging.foldl cleanupStuckId q
  let channels_to_clean := ((q₁.request_timestamps.filter (fun p => 35 < now - p.2)).map (·.1))
  channels_to_clean.foldl releasePendingFor q₁

/-! ## Block pipeline: nonces, block sizes, retries -/

/-- `usize::to_be_bytes` on a 64-bit platform: the eight big-endian
bytes of the index. -/
def toBeBytes8 (n : Nat) : List Nat :=
  (List.range 8).map (fun j => n / 256 ^ (7 - j) % 256)

/-- The per-block nonce construction (lines 1325-1330): a 12-byte array
of zeros whose leading `min 8 12 = 8` bytes are overwritten with the
big-endian bytes of the block index. -/
def blockNonceBytes (index : Nat) : List Nat :=
  (List.range 12).map (fun i => if i < 8 then (toBeBytes8 index).getD i 0 else 0)

/-- The fixed thumbnail-encryption nonce `[0u8; 12]` (line 1145). -/
def thumbnailNonceBytes : List Nat := List.replicate 12 0

/-- The per-block size computation of lines 1274-1280, with u64
subtraction modelled as a checked operation: `offset = index *
block_size`; when `offset + block_size > file_size` the code computes
`file_size - offset`, which underflows (`none`) whenever
`offset > file_size`. -/
def currentBlockSize (index block_size file_size : Nat) : Option Nat :=
  let offset := index * block_size
  if offset + block_size > file_size then
    if offset ≤ file_size then some (file_size - offset) else none
  else some block_size

/-- The block-upload retry loop (lines 1350-1390), written on the
decreasing gas `max_retries - retry_count`.  `attempt rc` is the outcome
of the HTTP attempt made with `retry_count = rc` (success status ↦
`true`, transport error or non-success status ↦ `false`); after a failed
attempt `retry_count` is incremented and the loop sleeps
`1000 * retry_count` milliseconds.  Returns
`(upload_success, final retry_count, sleeps in ms)`. -/
def uploadGo (attempt : Nat → Bool) : Nat → Nat → List Nat → Bool × Nat × List Nat
  | 0, rc, sleeps => (false, rc, sleeps)
  | gas + 1, rc, sleeps =>
    if attempt rc then (true, rc, sleeps)
    else uploadGo attempt gas (rc + 1) (sleeps ++ [1000 * (rc + 1)])

/-- One block's upload with `max_retries = 3` (line 1351). -/
def uploadBlock (attempt : Nat → Bool) : Bool × Nat × List Nat :=
  uploadGo attempt 3 0 []

/-- The block-completion duplicate guard (lines 1408-1415): look up the
compound key in `block_completion_sent`, inserting it when absent; the
notification is emitted exactly when the key was absent. -/
def blockCompletionGuard (q : TransferQueue) (key : String) : TransferQueue × Bool :=
  if key ∈ q.block_completion_sent then (q, false)
  else ({ q with block_completion_sent := insertS key q.block_completion_sent }, true)

/-- The compound block key `format!("{}:{}", block_id, index)`
(line 1405). -/
def blockKey (block_id : String) (index : Nat) : String :=
  block_id ++ ":" ++ toString index

/-! ## The `process_file` model -/

/-- Resolution of the awaited upload-URLs oneshot (lines 988-1019):
a success payload, an explicit error payload, a dropped sender
("channel closed"), or the 30s timeout. -/
inductive UrlOutcome where
  | success (r : UploadUrlsResponse)
  | errorResp (e : String)
  | closed
  | timeout
deriving DecidableEq

/-- Result of the per-file block loop: all blocks uploaded, cancelled /
paused mid-loop (the code returns `Ok(())` from the whole function), or
failed with an error already routed through `handle_file_error`. -/
inductive LoopResult where
  | completed
  | cancelled
  | failed (e : String)
deriving DecidableEq

/-- Environment of one `process_file` call: the outcomes of its
filesystem, negotiation and network interactions. -/
structure FileEnv where
  file_exists : Bool
  metadata_ok : Bool
  file_size : Nat
  is_image : Bool
  url_outcome : UrlOutcome
  thumb_gen_ok : Bool
  thumb_encrypt_ok : Bool
  thumb_upload_ok : Bool
  open_ok : Bool
  seek_ok : Nat → Bool
  read_ok : Nat → Bool
  encrypt_ok : Nat → Bool
  upload_attempt : Nat → Nat → Bool
  now : Nat

/-- The per-block loop of `process_file` (lines 1265-1483).  `pos` is
the loop position (also used to index the environment's per-block
outcomes).  Each iteration: cancellation check, seek, read, encrypt
(with nonce `blockNonceBytes u.index`), upload with retries, guarded
block-complete notification, progress event. -/
def processBlocksLoop (env : FileEnv) (item : QueueItem) (server_file_id : String) :
    List PresignedUrl → Nat → TransferQueue → TransferQueue × List Event × LoopResult
  | [], _, q => (q, [], .completed)
  | u :: rest, pos, q =>
    if q.processing.isNone || q.paused then (q, [], .cancelled)
    else if env.seek_ok pos = false then
      let e := "Failed to seek in file"
      let h := handle_file_error q item.id item.name e
      (h.1, h.2, .failed e)
    else if env.read_ok pos = false then
      let e := "Failed to read file block"
      let h := handle_file_error q item.id item.name e
      (h.1, h.2, .failed e)
    else if env.encrypt_ok pos = false then
      let e := "Failed to encrypt block"
      let h := handle_file_error q item.id item.name e
      (h.1, h.2, .failed e)
    else if (uploadBlock (env.upload_attempt pos)).1 = false then
      let e := "Upload failed after 3 retries"
      let h := handle_file_error q item.id item.name e
      (h.1, h.2, .failed e)
    else
      let g := blockCompletionGuard q (blockKey u.block_id u.index)
      let evs₁ :=
        (if g.2 then [Event.blockComplete u.block_id u.index server_file_id] else [])
        ++ [Event.transferProgress item.id "uploading"]
      let r := processBlocksLoop env item server_file_id rest (pos + 1) g.1
      (r.1, evs₁ ++ r.2.1, r.2.2)

/-- The tail of `process_file` after a successful upload-URLs response
(lines 1021-1533): optional thumbnail work, content-key validation,
the block loop, and the guarded finalize request. -/
def processFileWithResponse (env : FileEnv) (item : QueueItem) (needs_thumbnail : Bool)
    (r : UploadUrlsResponse) (q : TransferQueue) :
    TransferQueue × List Event × Except String Unit :=
  let evsT₁ :=
    if needs_thumbnail && !r.upload_urls.isEmpty
        && (r.upload_urls.find? (fun u => strContains u.url "thumbnail")).isSome then
      [Event.transferProgress item.id "preparing"]
    else []
  match r.content_key_bytes with
  | none =>
    let e := "Failed to decode encryption key"
    let h := handle_file_error q item.id item.name e
    (h.1, evsT₁ ++ h.2, .error e)
  | some key_bytes =>
    if key_bytes.length ≠ 32 then
      let e := "Invalid encryption key length, must be 32 bytes"
      let h := handle_file_error q item.id item.name e
      (h.1, evsT₁ ++ h.2, .error e)
    else
      let evsT₂ :=
        match r.thumbnail with
        | none => []
        | some ti =>
          [Event.transferProgress item.id "preparing"]
          ++ (if env.thumb_gen_ok && env.thumb_encrypt_ok && env.thumb_upload_ok then
                [Event.thumbnailComplete ti.id]
              else [])
      let evsU := [Event.transferProgress item.id "uploading"]
      if env.open_ok = false then
        let e := "Failed to open file"
        let h := handle_file_error q item.id item.name e
        (h.1, evsT₁ ++ evsT₂ ++ evsU ++ h.2, .error e)
      else
        let b := processBlocksLoop env item r.file_id r.upload_urls 0 q
        match b.2.2 with
        | .failed e => (b.1, evsT₁ ++ evsT₂ ++ evsU ++ b.2.1, .error e)
        | .cancelled => (b.1, evsT₁ ++ evsT₂ ++ evsU ++ b.2.1, .ok ())
        | .completed =>
          if item.id ∈ b.1.completion_notifications_sent then
            (b.1, evsT₁ ++ evsT₂ ++ evsU ++ b.2.1, .ok ())
          else
            ({ b.1 with
                completion_notifications_sent :=
                  insertS item.id b.1.completion_notifications_sent },
             evsT₁ ++ evsT₂ ++ evsU ++ b.2.1
               ++ [Event.transferProgress item.id "uploading",
                   Event.finalizeTransfer item.id r.file_id],
             .ok ())

/-- Awaiting the upload-URLs oneshot with its 30s timeout
(lines 988-1019) and, on success, the rest of the pipeline.  The
timestamp entry is removed on a success or timeout resolution and kept
on the error / closed resolutions, as in the source. -/
def processFileAwait (env : FileEnv) (item : QueueItem) (needs_thumbnail : Bool)
    (q₂ : TransferQueue) : TransferQueue × List Event × Except String Unit :=
  match env.url_outcome with
  | .errorResp e =>
    let h := handle_file_error q₂ item.id item.name e
    (h.1, h.2, .error e)
  | .closed =>
    let e := "Channel closed before receiving response"
    let h := handle_file_error q₂ item.id item.name e
    (h.1, h.2, .error e)
  | .timeout =>
    let e := "Timeout waiting for presigned URLs"
    let q₃ := { q₂ with request_timestamps := removeTS item.id q₂.request_timestamps }
    let h := handle_file_error q₃ item.id item.name e
    (h.1, h.2, .error e)
  | .success r =>
    let q₃ := { q₂ with request_timestamps := removeTS item.id q₂.request_timestamps }
    let w := processFileWithResponse env item needs_thumbnail r q₃
    (w.1, w.2.1, w.2.2)

/-- `process_file` (lines 826-1540), as a pure function
`state → state × trace × result`.  Validation, the idempotent
initialization guard, the slot-before-emit negotiation, and the upload
pipeline; the two errors raised before any state change (missing file,
unreadable metadata) are returned unhandled, exactly as in the source,
where `process_next_item` routes them through `handle_file_error`. -/
def process_file (q : TransferQueue) (item : QueueItem) (env : FileEnv)
    (share_id : String) : TransferQueue × List Event × Except String Unit :=
  if env.file_exists = false then
    (q, [], .error ("File not found or is not a file: " ++ item.path))
  else if env.metadata_ok = false then
    (q, [], .error "Failed to read file metadata")
  else
    let file_size := env.file_size
    if file_size = 0 then
      let e := "File is empty (0 bytes): " ++ item.path
      let h := handle_file_error q item.id item.name e
      (h.1, h.2, .error e)
    else
      let needs_thumbnail := env.is_image && file_size < 5 * 1024 * 1024
      if item.id ∈ q.initialized_files then
        if item.id ∈ q.completed then (q, [], .ok ())
        else ({ q with processing := some item.id }, [], .ok ())
      else
        let q₁ :=
          { q with
            processing := some item.id
            initialized_files := insertS item.id q.initialized_files }
        let evs₀ := [Event.transferProgress item.id "preparing"]
        let parent_id := (lookupM item.parent_id q₁.folder_id_map).getD item.parent_id
        if item.id ∈ q₁.received_url_responses then (q₁, evs₀, .ok ())
        else
          let q₂ :=
            { q₁ with
              request_timestamps := insertTS item.id env.now q₁.request_timestamps
              received_url_responses := insertS item.id q₁.received_url_responses }
          let evs₁ :=
            evs₀ ++ [Event.registerUrlSlot item.id,
                     Event.initFileUpload item.id item.name parent_id share_id file_size]
          let a := processFileAwait env item needs_thumbnail q₂
          (a.1, evs₁ ++ a.2.1, a.2.2)

/-! ## The `process_folder` model -/

/-- Resolution of the awaited folder-creation oneshot (lines 1658-1697). -/
inductive FolderOutcome where
  | success (folder_id : String)
  | errorResp (e : String)
  | closed
  | timeout
deriving DecidableEq

/-- Environment of one `process_folder` call.  `scan_files` /
`scan_subfolders` are the names of the directory's immediate children in
filesystem enumeration order (`scan_folder`, lines 178-198, returns their
full paths); `gen_id k` is the k-th id produced by `generate_id` during
this call (files first, then subfolders, as in the source loops). -/
structure FolderEnv where
  dir_exists : Bool
  folder_outcome : FolderOutcome
  scan_ok : Bool
  scan_files : List String
  scan_subfolders : List String
  gen_id : Nat → String
  now : Nat

/-- Construction of the child `QueueItem`s of an expanded folder
(loops at lines 1759-1792): path `folder.path ++ "/" ++ name`, parent id
the server-assigned folder id, depth 0. -/
def buildChildItems (kind parent_path folder_id : String) (gen : Nat → String) :
    List String → Nat → List QueueItem
  | [], _ => []
  | n :: ns, k =>
    { item_type := kind
      id := gen k
      path := parent_path ++ "/" ++ n
      name := n
      parent_id := folder_id
      depth := 0 } :: buildChildItems kind parent_path folder_id gen ns (k + 1)

/-- `VecDeque::push_back` iterated over a list (the three insertion
loops of lines 1746-1800 push files, then subfolders, then the drained
pre-existing items onto an initially empty deque). -/
def pushBackAll (acc : List QueueItem) (xs : List QueueItem) : List QueueItem :=
  xs.foldl (fun a x => a ++ [x]) acc

/-- The queue rebuild of lines 1745-1801: drain the existing queue,
push the folder's files, then its subfolders, then the drained items. -/
def expandEnqueue (q : TransferQueue) (fileItems folderItems : List QueueItem) :
    TransferQueue :=
  let existing := q.items
  let new_items := pushBackAll (pushBackAll (pushBackAll [] fileItems) folderItems) existing
  { q with items := new_items }

/-- The terminal block of `process_folder` (lines 1848-1855): clear the
processing slot, mark the folder completed, drop any leftover timestamp
and the pending-folder path. -/
def folderFinish (q : TransferQueue) (item : QueueItem) : TransferQueue :=
  { q with
    processing := none
    completed := insertS item.id q.completed
    request_timestamps := removeTS item.id q.request_timestamps
    pending_folders := removeS item.path q.pending_folders }

/-- `process_folder` (lines 1543-1860), minus its tail call to
`process_next_item`.  Note the negotiation order taken from the source:
the `create-folder` event is emitted (lines 1631-1641) *before* the
oneshot response slot is registered (lines 1644-1649). -/
def process_folder (q : TransferQueue) (item : QueueItem) (env : FolderEnv)
    (share_id : String) : TransferQueue × List Event × Except String Unit :=
  if env.dir_exists = false then
    (q, [], .error ("Folder not found or is not a directory: " ++ item.path))
  else if item.id ∈ q.initialized_folders then
    if item.id ∈ q.completed then
      ({ q with pending_folders := removeS item.path q.pending_folders }, [], .ok ())
    else
      (folderFinish { q with processing := some item.id } item, [], .ok ())
  else
    let q₁ :=
      { q with
        processing := some item.id
        initialized_folders := insertS item.id q.initialized_folders }
    let evs₀ := [Event.transferProgress item.id "preparing"]
    let parent_id := (lookupM item.parent_id q₁.folder_id_map).getD item.parent_id
    if item.id ∈ q₁.received_folder_responses then
      (folderFinish q₁ item, evs₀, .ok ())
    else
      let q₂ :=
        { q₁ with
          request_timestamps := insertTS item.id env.now q₁.request_timestamps
          received_folder_responses := insertS item.id q₁.received_folder_responses }
      let evs₁ :=
        evs₀ ++ [Event.createFolder item.id item.name parent_id share_id,
                 Event.registerFolderSlot item.id]
      match env.folder_outcome with
      | .errorResp e =>
        let h := handle_folder_error q₂ item.id item.name e
        let q'' := { h.1 with pending_folders := removeS item.path h.1.pending_folders }
        (q'', evs₁ ++ h.2, .error e)
      | .closed =>
        let e := "Channel closed before receiving response"
        let h := handle_folder_error q₂ item.id item.name e
        let q'' := { h.1 with pending_folders := removeS item.path h.1.pending_folders }
        (q'', evs₁ ++ h.2, .error e)
      | .timeout =>
        let e := "Timeout waiting for folder creation"
        let q₃ :=
          { q₂ with
            request_timestamps := removeTS item.id q₂.request_timestamps
            pending_folders := removeS item.path q₂.pending_folders }
        let h := handle_folder_error q₃ item.id item.name e
        (h.1, evs₁ ++ h.2, .error e)
      | .success folder_id =>
        let q₃ :=
          { q₂ with
            request_timestamps := removeTS item.id q₂.request_timestamps
            folder_id_map := insertM item.path folder_id q₂.folder_id_map }
        if env.scan_ok = false then
          let e := "Failed to scan folder"
          let h := handle_folder_error q₃ item.id item.name e
          let q'' := { h.1 with pending_folders := removeS item.path h.1.pending_folders }
          (q'', evs₁ ++ h.2, .error e)
        else
          let fileItems :=
            buildChildItems "file" item.path folder_id env.gen_id env.scan_files 0
          let folderItems :=
            buildChildItems "folder" item.path folder_id env.gen_id env.scan_subfolders
              env.scan_files.length
          let evs₂ := evs₁ ++ [Event.transferProgress item.id "processing"]
          let q₄ := expandEnqueue q₃ fileItems folderItems
          if item.id ∈ q₄.completion_notifications_sent then
            (folderFinish q₄ item, evs₂, .ok ())
          else
            let q₅ :=
              { q₄ with
                completion_notifications_sent :=
                  insertS item.id q₄.completion_notifications_sent }
            let evs₃ :=
              evs₂ ++ [Event.transferProgress item.id "completed",
                       Event.transferComplete item.id item.name "completed"
                         "Folder created successfully"]
            (folderFinish q₅ item, evs₃, .ok ())

/-- The dispatch-and-error-handling step of `process_next_item`
(lines 709-754) applied to an already-dequeued item: run
`process_file` / `process_folder`; on an `Err` route it through the
matching error handler, additionally releasing the folder's
pending-folder path (lines 746-748). -/
def processNextResult (q : TransferQueue) (item : QueueItem) (fenv : FileEnv)
    (benv : FolderEnv) (share_id : String) : TransferQueue :=
  if item.item_type = "file" then
    let r := process_file q item fenv share_id
    match r.2.2 with
    | .ok _ => r.1
    | .error e => (handle_file_error r.1 item.id item.name e).1
  else if item.item_type = "folder" then
    let r := process_folder q item benv share_id
    match r.2.2 with
    | .ok _ => r.1
    | .error e =>
      let q'' := (handle_folder_error r.1 item.id item.name e).1
      { q'' with pending_folders := removeS item.path q''.pending_folders }
  else q

/-! ## The operation-level transition system

Each public command of the engine, as modelled above, becomes one atomic
transition; `Reachable` is the set of states obtainable from
`TransferQueue::new` by any sequence of them.  The freshness hypotheses
on the enqueue and expansion transitions embed the global uniqueness of
`generate_id` (line 167: timestamp plus 64 random bits). -/

/-- The ids currently in the items queue. -/
def queueIds (q : TransferQueue) : List String := q.items.map (·.id)

/-- The ids in the queue together with the processing slot. -/
def qpIds (q : TransferQueue) : List String := queueIds q ++ q.processing.toList

/-- One atomic public operation of the engine. -/
inductive Step : TransferQueue → TransferQueue → Prop where
  | select (q : TransferQueue) (its : List QueueItem) (share_id : String)
      (hnodup : (its.map (·.id)).Nodup)
      (hfresh : ∀ i ∈ its.map (·.id), i ∉ qpIds q) :
      Step q (selectEnqueue q its share_id)
  | sweep (q : TransferQueue) (now : Nat) : Step q (sweepStale q now)
  | processNext (q q₁ : TransferQueue) (item : QueueItem) (fenv : FileEnv)
      (benv : FolderEnv) (share_id : String)
      (hp : q.paused = false) (hpr : q.processing = none)
      (hd : dequeueNext q = some (item, q₁))
      (hinj : Function.Injective benv.gen_id)
      (hfresh : ∀ k, benv.gen_id k ∉ qpIds q) :
      Step q (processNextResult q₁ item fenv benv share_id)
  | cancelOne (q : TransferQueue) (id : String) : Step q (cancel_transfer id q)
  | cancelAll (q : TransferQueue) : Step q (cancel_all_transfers q)
  | finalize (q : TransferQueue) (tid fid : String) (success : Bool)
      (err : Option String) :
      Step q (finalize_transfer_complete q tid fid success err).1
  | cleanup (q : TransferQueue) (now : Nat) : Step q (cleanup_stuck_transfers q now)
  | fileErr (q : TransferQueue) (id name e : String) :
      Step q (handle_file_error q id name e).1
  | folderErr (q : TransferQueue) (id name e : String) :
      Step q (handle_folder_error q id name e).1

/-- States reachable from a fresh `TransferQueue`. -/
inductive Reachable : TransferQueue → Prop where
  | init (now : Nat) : Reachable (TransferQueue.new now)
  | step {q q' : TransferQueue} : Reachable q → Step q q' → Reachable q'

/-! ## Shape lemmas: effect of each operation on `items` and `processing` -/

theorem handle_file_error_shape (q : TransferQueue) (id name e : String) :
    (handle_file_error q id name e).1.items = q.items ∧
    (handle_file_error q id name e).1.processing = none :=
  ⟨rfl, rfl⟩

theorem handle_folder_error_shape (q : TransferQueue) (id name e : String) :
    (handle_folder_error q id name e).1.items = q.items ∧
    (handle_folder_error q id name e).1.processing = none :=
  ⟨rfl, rfl⟩

theorem blockCompletionGuard_shape (q : TransferQueue) (key : String) :
    (blockCompletionGuard q key).1.items = q.items ∧
    (blockCompletionGuard q key).1.processing = q.processing := by
  unfold blockCompletionGuard
  split <;> exact ⟨rfl, rfl⟩

theorem processBlocksLoop_shape (env : FileEnv) (item : QueueItem) (sfi : String)
    (urls : List PresignedUrl) : ∀ (pos : Nat) (q : TransferQueue),
    (processBlocksLoop env item sfi urls pos q).1.items = q.items ∧
    ((processBlocksLoop env item sfi urls pos q).1.processing = q.processing ∨
      (processBlocksLoop env item sfi urls pos q).1.processing = none) := by
  induction urls with
  | nil => exact fun pos q => ⟨rfl, Or.inl rfl⟩
  | cons u rest ih =>
    intro pos q
    obtain ⟨hg1, hg2⟩ := blockCompletionGuard_shape q (blockKey u.block_id u.index)
    obtain ⟨hi1, hi2⟩ := ih (pos + 1) (blockCompletionGuard q (blockKey u.block_id u.index)).1
    unfold processBlocksLoop
    split
    · exact ⟨rfl, Or.inl rfl⟩
    · split
      · exact ⟨rfl, Or.inr rfl⟩
      · split
        · exact ⟨rfl, Or.inr rfl⟩
        · split
          · exact ⟨rfl, Or.inr rfl⟩
          · split
            · exact ⟨rfl, Or.inr rfl⟩
            · refine ⟨hi1.trans hg1, ?_⟩
              rcases hi2 with h | h
              · exact Or.inl (h.trans hg2)
              · exact Or.inr h

theorem processFileWithResponse_shape (env : FileEnv) (item : QueueItem)
    (nt : Bool) (r : UploadUrlsResponse) (q : TransferQueue) :
    (processFileWithResponse env item nt r q).1.items = q.items ∧
    ((processFileWithResponse env item nt r q).1.processing = q.processing ∨
      (processFileWithResponse env item nt r q).1.processing = none) := by
  obtain ⟨hb1, hb2⟩ := processBlocksLoop_shape env item r.file_id r.upload_urls 0 q
  rcases hck : r.content_key_bytes with _ | kb
  · simp [processFileWithResponse, hck, handle_file_error]
  · by_cases hkl : kb.length = 32
    · by_cases ho : env.open_ok = false
      · simp [processFileWithResponse, hck, hkl, ho, handle_file_error]
      · rcases hres : (processBlocksLoop env item r.file_id r.upload_urls 0 q).2.2 with
          _ | _ | e
        · by_cases hcn :
            item.id ∈ (processBlocksLoop env item r.file_id r.upload_urls 0 q).1.completion_notifications_sent
          · simp only [processFileWithResponse, hck, hkl, ho, hres, hcn]
            simp [hb1, hb2]
          · simp only [processFileWithResponse, hck, hkl, ho, hres, hcn]
            simp [hb1, hb2]
        · simp only [processFileWithResponse, hck, hkl, ho, hres]
          simp [hb1, hb2]
        · simp only [processFileWithResponse, hck, hkl, ho, hres]
          simp [hb1, hb2]
    · simp [processFileWithResponse, hck, hkl, handle_file_error]

theorem processFileAwait_shape (env : FileEnv) (item : QueueItem) (nt : Bool)
    (q : TransferQueue) :
    (processFileAwait env item nt q).1.items = q.items ∧
    ((processFileAwait env item nt q).1.processing = q.processing ∨
      (processFileAwait env item nt q).1.processing = none) := by
  rcases ho : env.url_outcome with r | e | _ | _
  · have h :=
      processFileWithResponse_shape env item nt r
        { q with request_timestamps := removeTS item.id q.request_timestamps }
    simp only [processFileAwait, ho]
    exact ⟨h.1, h.2⟩
  · simp [processFileAwait, ho, handle_file_error]
  · simp [processFileAwait, ho, handle_file_error]
  · simp [processFileAwait, ho, handle_file_error]

theorem process_file_shape (q : TransferQueue) (item : QueueItem) (env : FileEnv)
    (sid : String) :
    (process_file q item env sid).1.items = q.items ∧
    ((process_file q item env sid).1.processing = q.processing ∨
      (process_file q item env sid).1.processing = none ∨
      (process_file q item env sid).1.processing = some item.id) := by
  by_cases h1 : env.file_exists = false
  · simp [process_file, h1]
  · by_cases h2 : env.metadata_ok = false
    · simp [process_file, h1, h2]
    · by_cases h3 : env.file_size = 0
      · simp [process_file, h1, h2, h3, handle_file_error]
      · by_cases h4 : item.id ∈ q.initialized_files
        · by_cases h5 : item.id ∈ q.completed
          · simp [process_file, h1, h2, h3, h4, h5]
          · simp [process_file, h1, h2, h3, h4, h5]
        · by_cases h7 : item.id ∈ q.received_url_responses
          · simp [process_file, h1, h2, h3, h4, h7]
          · have h :=
              processFileAwait_shape env item
                (env.is_image && decide (env.file_size < 5 * 1024 * 1024))
                { q with
                  processing := some item.id
                  initialized_files := insertS item.id q.initialized_files
                  request_timestamps :=
                    insertTS item.id env.now q.request_timestamps
                  received_url_responses :=
                    insertS item.id q.received_url_responses }
            simp only [process_file, h1, h2, h3, h4, h7]
            refine ⟨h.1, ?_⟩
            rcases h.2 with h' | h'
            · exact Or.inr (Or.inr h')
            · exact Or.inr (Or.inl h')

theorem pushBackAll_eq_append : ∀ (xs acc : List QueueItem), pushBackAll acc xs = acc ++ xs
  | [], acc => by simp [pushBackAll]
  | x :: xs, acc => by
    show pushBackAll (acc ++ [x]) xs = acc ++ x :: xs
    rw [pushBackAll_eq_append xs (acc ++ [x])]
    simp

theorem expandEnqueue_items (q : TransferQueue) (fileItems folderItems : List QueueItem) :
    (expandEnqueue q fileItems folderItems).items = fileItems ++ folderItems ++ q.items := by
  show pushBackAll (pushBackAll (pushBackAll [] fileItems) folderItems) q.items = _
  rw [pushBackAll_eq_append, pushBackAll_eq_append, pushBackAll_eq_append]
  simp

theorem folderFinish_shape (q : TransferQueue) (item : QueueItem) :
    (folderFinish q item).items = q.items ∧ (folderFinish q item).processing = none :=
  ⟨rfl, rfl⟩

theorem expandEnqueue_sent (q : TransferQueue) (fileItems folderItems : List QueueItem) :
    (expandEnqueue q fileItems folderItems).completion_notifications_sent =
      q.completion_notifications_sent := rfl

theorem process_folder_shape (q : TransferQueue) (item : QueueItem) (env : FolderEnv)
    (sid : String) :
    ((process_folder q item env sid).1.items = q.items ∨
      ∃ fid, (process_folder q item env sid).1.items =
        buildChildItems "file" item.path fid env.gen_id env.scan_files 0
        ++ buildChildItems "folder" item.path fid env.gen_id env.scan_subfolders
            env.scan_files.length
        ++ q.items) ∧
    ((process_folder q item env sid).1.processing = q.processing ∨
      (process_folder q item env sid).1.processing = none) := by
  by_cases hd : env.dir_exists = false
  · simp [process_folder, hd]
  · by_cases hi : item.id ∈ q.initialized_folders
    · by_cases hc : item.id ∈ q.completed
      · simp [process_folder, hd, hi, hc]
      · simp [process_folder, hd, hi, hc, folderFinish]
    · by_cases hr : item.id ∈ q.received_folder_responses
      · simp [process_folder, hd, hi, hr, folderFinish]
      · rcases ho : env.folder_outcome with fid | e | _ | _
        · by_cases hs : env.scan_ok = false
          · simp [process_folder, hd, hi, hr, ho, hs, handle_folder_error]
          · by_cases hn : item.id ∈ q.completion_notifications_sent
            · constructor
              · refine Or.inr ⟨fid, ?_⟩
                simp [process_folder, hd, hi, hr, ho, hs, hn, folderFinish,
                  expandEnqueue_items, expandEnqueue_sent]
              · simp [process_folder, hd, hi, hr, ho, hs, hn, folderFinish, expandEnqueue_sent]
            · constructor
              · refine Or.inr ⟨fid, ?_⟩
                simp [process_folder, hd, hi, hr, ho, hs, hn, folderFinish,
                  expandEnqueue_items, expandEnqueue_sent]
              · simp [process_folder, hd, hi, hr, ho, hs, hn, folderFinish, expandEnqueue_sent]
        · simp [process_folder, hd, hi, hr, ho, handle_folder_error]
        · simp [process_folder, hd, hi, hr, ho, handle_folder_error]
        · simp [process_folder, hd, hi, hr, ho, handle_folder_error]

theorem processNextResult_shape (q : TransferQueue) (item : QueueItem) (fenv : FileEnv)
    (benv : FolderEnv) (sid : String) :
    ((processNextResult q item fenv benv sid).items = q.items ∨
      ∃ fid, (processNextResult q item fenv benv sid).items =
        buildChildItems "file" item.path fid benv.gen_id benv.scan_files 0
        ++ buildChildItems "folder" item.path fid benv.gen_id benv.scan_subfolders
            benv.scan_files.length
        ++ q.items) ∧
    ((processNextResult q item fenv benv sid).processing = q.processing ∨
      (processNextResult q item fenv benv sid).processing = none ∨
      (processNextResult q item fenv benv sid).processing = some item.id) := by
  by_cases hf : item.item_type = "file"
  · obtain ⟨hl, hp⟩ := process_file_shape q item fenv sid
    rcases hres : (process_file q item fenv sid).2.2 with e | u
    · simp only [processNextResult, hf, if_pos, hres]
      exact ⟨Or.inl hl, Or.inr (Or.inl rfl)⟩
    · simp only [processNextResult, hf, if_pos, hres]
      exact ⟨Or.inl hl, hp⟩
  · by_cases hb : item.item_type = "folder"
    · obtain ⟨hl, hp⟩ := process_folder_shape q item benv sid
      rcases hres : (process_folder q item benv sid).2.2 with e | u
      · simp only [processNextResult, hf, hb, if_neg, if_pos, hres]
        constructor
        · rcases hl with hl | ⟨fid, hl⟩
          · exact Or.inl hl
          · exact Or.inr ⟨fid, hl⟩
        · exact Or.inr (Or.inl rfl)
      · simp only [processNextResult, hf, hb, if_neg, if_pos, hres]
        refine ⟨hl, ?_⟩
        rcases hp with h | h
        · exact Or.inl h
        · exact Or.inr (Or.inl h)
    · simp only [processNextResult, hf, hb, if_neg]
      simp

theorem scanSplit_eq (p : List String) :
    ∀ (l pre post : List QueueItem) (c : QueueItem),
      scanSplit p l = some (pre, c, post) → l = pre ++ c :: post := by
  intro l
  induction l with
  | nil => intro pre post c h; simp [scanSplit] at h
  | cons x xs ih =>
    intro pre post c h
    by_cases ht : scanTake p x
    · simp only [scanSplit, ht, if_true, Option.some.injEq, Prod.mk.injEq] at h
      obtain ⟨h1, h2, h3⟩ := h
      subst h1; subst h2; subst h3
      simp
    · simp only [scanSplit, ht, if_false, Bool.false_eq_true] at h
      rcases hs : scanSplit p xs with _ | ⟨⟨pre', c', post'⟩⟩
      · rw [hs] at h; cases h
      · rw [hs] at h
        simp only [Option.some.injEq, Prod.mk.injEq] at h
        obtain ⟨h1, h2, h3⟩ := h
        subst h1; subst h2; subst h3
        have hx := ih pre' post' c' hs
        simp [hx]

theorem dequeueNext_split (q : TransferQueue) (item : QueueItem) (q₁ : TransferQueue)
    (h : dequeueNext q = some (item, q₁)) :
    (∃ pre post, q.items = pre ++ item :: post ∧ q₁.items = pre ++ post) ∧
    q₁.processing = q.processing := by
  rcases hq : q.items with _ | ⟨first, rest⟩
  · simp [dequeueNext, hq] at h
  · by_cases hft : first.item_type = "folder"
    · simp only [dequeueNext, hq, hft, if_true, Option.some.injEq, Prod.mk.injEq] at h
      obtain ⟨h1, h2⟩ := h
      subst h1; subst h2
      exact ⟨⟨[], rest, rfl, by simp⟩, rfl⟩
    · by_cases hp : parentPathStr first.path ∈ q.pending_folders
      · rcases hs : scanSplit q.pending_folders q.items with _ | ⟨⟨pre, c, post⟩⟩
        · rw [hq] at hs
          simp only [dequeueNext, hq, hft, if_false, hp, if_true, hs] at h
          simp at h
        · rw [hq] at hs
          simp only [dequeueNext, hq, hft, if_false, hp, if_true, hs,
            Option.some.injEq, Prod.mk.injEq] at h
          obtain ⟨h1, h2⟩ := h
          subst h1; subst h2
          have hsplit := scanSplit_eq q.pending_folders (first :: rest) pre post c hs
          exact ⟨⟨pre, post, hsplit, by simp⟩, rfl⟩
      · simp only [dequeueNext, hq, hft, if_false, hp, Option.some.injEq,
          Prod.mk.injEq] at h
        obtain ⟨h1, h2⟩ := h
        subst h1; subst h2
        exact ⟨⟨[], rest, rfl, by simp⟩, rfl⟩

theorem buildChildItems_ids_mem (kind pp fid : String) (gen : Nat → String) :
    ∀ (ns : List String) (k : Nat) (x : String),
      x ∈ (buildChildItems kind pp fid gen ns k).map (·.id) →
      ∃ j, k ≤ j ∧ j < k + ns.length ∧ x = gen j := by
  intro ns
  induction ns with
  | nil => intro k x h; simp [buildChildItems] at h
  | cons n ns ih =>
    intro k x h
    simp only [buildChildItems, List.map_cons, List.mem_cons] at h
    rcases h with h | h
    · exact ⟨k, le_refl k, by simp, h⟩
    · obtain ⟨j, hj1, hj2, hj3⟩ := ih (k + 1) x h
      exact ⟨j, by omega, by simp; omega, hj3⟩

theorem buildChildItems_ids_nodup (kind pp fid : String) (gen : Nat → String)
    (hinj : Function.Injective gen) :
    ∀ (ns : List String) (k : Nat),
      ((buildChildItems kind pp fid gen ns k).map (·.id)).Nodup := by
  intro ns
  induction ns with
  | nil => intro k; simp [buildChildItems]
  | cons n ns ih =>
    intro k
    simp only [buildChildItems, List.map_cons, List.nodup_cons]
    refine ⟨?_, ih (k + 1)⟩
    intro hmem
    obtain ⟨j, hj1, _, hj3⟩ := buildChildItems_ids_mem kind pp fid gen ns (k + 1) _ hmem
    have : k = j := hinj hj3
    omega

/-! ## The queue / processing-slot exclusivity invariant -/

/-- No id occurs twice across the items queue and the processing slot. -/
def InvQP (q : TransferQueue) : Prop := (qpIds q).Nodup

theorem foldl_cancelCleanupId_shape (l : List String) :
    ∀ q : TransferQueue,
      (l.foldl cancelCleanupId q).items = q.items ∧
      (l.foldl cancelCleanupId q).processing = q.processing := by
  induction l with
  | nil => exact fun q => ⟨rfl, rfl⟩
  | cons x xs ih =>
    intro q
    obtain ⟨h1, h2⟩ := ih (cancelCleanupId q x)
    exact ⟨h1, h2⟩

theorem foldl_sweepId_shape (l : List String) :
    ∀ q : TransferQueue,
      (l.foldl sweepId q).items = q.items ∧
      (l.foldl sweepId q).processing = q.processing := by
  induction l with
  | nil => exact fun q => ⟨rfl, rfl⟩
  | cons x xs ih =>
    intro q
    obtain ⟨h1, h2⟩ := ih (sweepId q x)
    exact ⟨h1, h2⟩

theorem foldl_cleanupStuckId_shape (l : List String) :
    ∀ q : TransferQueue,
      (l.foldl cleanupStuckId q).items = q.items ∧
      ((l.foldl cleanupStuckId q).processing = q.processing ∨
        (l.foldl cleanupStuckId q).processing = none) := by
  induction l with
  | nil => exact fun q => ⟨rfl, Or.inl rfl⟩
  | cons x xs ih =>
    intro q
    simp only [List.foldl_cons]
    obtain ⟨h1, h2⟩ := ih (cleanupStuckId q x)
    refine ⟨h1, ?_⟩
    rcases h2 with h | h
    · rw [h]
      unfold cleanupStuckId
      by_cases hc : q.processing = some x
      · simp [hc]
      · simp [hc]
    · exact Or.inr h

theorem foldl_releasePendingFor_shape (l : List String) :
    ∀ q : TransferQueue,
      (l.foldl releasePendingFor q).items = q.items ∧
      (l.foldl releasePendingFor q).processing = q.processing := by
  induction l with
  | nil => exact fun q => ⟨rfl, rfl⟩
  | cons x xs ih =>
    intro q
    obtain ⟨h1, h2⟩ := ih (releasePendingFor q x)
    have hx : (releasePendingFor q x).items = q.items ∧
        (releasePendingFor q x).processing = q.processing := by
      unfold releasePendingFor
      refine ⟨?_, ?_⟩ <;> (split <;> rfl)
    exact ⟨h1.trans hx.1, h2.trans hx.2⟩

theorem nodup_of_items_processing {q q' : TransferQueue}
    (hi : q'.items = q.items) (hp : q'.processing = q.processing ∨ q'.processing = none)
    (h : InvQP q) : InvQP q' := by
  unfold InvQP qpIds queueIds at *
  rw [hi]
  rcases hp with hp | hp
  · rw [hp]; exact h
  · rw [hp]
    exact (List.nodup_append.mp h).1.append (by simp) (by simp)

theorem nodup_append3 {a b c : List String} (ha : a.Nodup) (hb : b.Nodup)
    (hc : c.Nodup) (hab : ∀ x ∈ a, x ∉ b) (hac : ∀ x ∈ a, x ∉ c)
    (hbc : ∀ x ∈ b, x ∉ c) : (a ++ b ++ c).Nodup := by
  refine List.Nodup.append (List.Nodup.append ha hb hab) hc ?_
  intro x hx hmem
  rcases List.mem_append.mp hx with hm | hm
  · exact hac x hm hmem
  · exact hbc x hm hmem

theorem nodup_append_one {l : List String} {i : String} (h1 : l.Nodup) (h2 : i ∉ l) :
    (l ++ [i]).Nodup :=
  (List.perm_append_singleton i l).nodup_iff.mpr (List.nodup_cons.mpr ⟨h2, h1⟩)

theorem InvQP_step {q q' : TransferQueue} (h : InvQP q) (hs : Step q q') : InvQP q' := by
  cases hs with
  | select its sid hnodup hfresh =>
    unfold InvQP qpIds queueIds selectEnqueue at *
    simp only [List.map_append]
    have hperm :
        ((q.items.map (·.id) ++ its.map (·.id)) ++ q.processing.toList).Perm
          ((q.items.map (·.id) ++ q.processing.toList) ++ its.map (·.id)) := by
      rw [List.append_assoc, List.append_assoc]
      exact List.Perm.append_left _ List.perm_append_comm
    refine hperm.nodup_iff.mpr ?_
    refine List.Nodup.append h hnodup ?_
    intro a ha hb
    exact hfresh a hb ha
  | sweep now =>
    obtain ⟨h1, h2⟩ := foldl_sweepId_shape _ q
    exact nodup_of_items_processing h1 (Or.inl h2) h
  | cancelOne id =>
    unfold InvQP qpIds queueIds cancel_transfer at *
    by_cases hc : q.processing = some id
    · simp only [hc, if_true]
      exact (List.nodup_append.mp h).1.append (by simp) (by simp)
    · simp only [hc, if_false]
      refine List.Nodup.sublist ?_ h
      exact List.Sublist.append (List.Sublist.map _ (List.filter_sublist q.items))
        (List.Sublist.refl _)
  | cancelAll =>
    have hsh : (cancel_all_transfers q).items = [] ∧
        (cancel_all_transfers q).processing = none := by
      unfold cancel_all_transfers
      rcases hqp : q.processing with _ | pid
      · exact ⟨(foldl_cancelCleanupId_shape _ _).1,
          (foldl_cancelCleanupId_shape _ _).2.trans hqp⟩
      · exact ⟨(foldl_cancelCleanupId_shape _ _).1,
          (foldl_cancelCleanupId_shape _ _).2⟩
    unfold InvQP qpIds queueIds
    rw [hsh.1, hsh.2]
    simp
  | finalize tid fid success err =>
    unfold InvQP qpIds queueIds finalize_transfer_complete at *
    by_cases hc : tid ∈ q.completed
    · simp only [hc, if_true]
      exact h
    · simp only [hc, if_false]
      exact (List.nodup_append.mp h).1.append (by simp) (by simp)
  | cleanup now =>
    obtain ⟨h1, h2⟩ := foldl_releasePendingFor_shape _
      (((q.request_timestamps.filter (fun p => 35 < now - p.2)).map (·.1)).foldl
        cleanupStuckId q)
    obtain ⟨h3, h4⟩ := foldl_cleanupStuckId_shape
      ((q.request_timestamps.filter (fun p => 35 < now - p.2)).map (·.1)) q
    refine @nodup_of_items_processing q (cleanup_stuck_transfers q now)
      (h1.trans h3) ?_ h
    rcases h4 with h4 | h4
    · exact Or.inl (h2.trans h4)
    · exact Or.inr (h2.trans h4)
  | fileErr id name e =>
    exact nodup_of_items_processing (handle_file_error_shape q id name e).1
      (Or.inr (handle_file_error_shape q id name e).2) h
  | folderErr id name e =>
    exact nodup_of_items_processing (handle_folder_error_shape q id name e).1
      (Or.inr (handle_folder_error_shape q id name e).2) h
  | processNext q₁ item fenv benv sid hp hpr hd hinj hfresh =>
    obtain ⟨⟨pre, post, hqi, hq1i⟩, hq1p⟩ := dequeueNext_split q item q₁ hd
    obtain ⟨hitems, hproc⟩ := processNextResult_shape q₁ item fenv benv sid
    have hnq : (queueIds q).Nodup := (List.nodup_append.mp h).1
    have hmid : (item.id :: (pre.map (·.id) ++ post.map (·.id))).Nodup := by
      have hq2 := hnq
      unfold queueIds at hq2
      rw [hqi] at hq2
      simp only [List.map_append, List.map_cons] at hq2
      exact List.nodup_middle.mp hq2
    have hrest_nodup : (pre.map (·.id) ++ post.map (·.id)).Nodup :=
      (List.nodup_cons.mp hmid).2
    have hitem_not : item.id ∉ pre.map (·.id) ++ post.map (·.id) :=
      (List.nodup_cons.mp hmid).1
    have hrest_sub : ∀ x ∈ pre.map (·.id) ++ post.map (·.id), x ∈ qpIds q := by
      intro x hx
      unfold qpIds queueIds
      rw [hqi]
      simp only [List.map_append, List.map_cons]
      rcases List.mem_append.mp hx with hx | hx
      · exact List.mem_append.mpr (Or.inl (List.mem_append.mpr (Or.inl hx)))
      · exact List.mem_append.mpr
          (Or.inl (List.mem_append.mpr (Or.inr (List.mem_cons_of_mem _ hx))))
    have hitem_mem : item.id ∈ qpIds q := by
      unfold qpIds queueIds
      rw [hqi]
      simp
    have hq1pn : q₁.processing = none := hq1p.trans hpr
    have hchild_not_rest : ∀ (kind fid : String) (ns : List String) (k : Nat),
        ∀ x ∈ (buildChildItems kind item.path fid benv.gen_id ns k).map (·.id),
          x ∉ pre.map (·.id) ++ post.map (·.id) := by
      intro kind fid ns k x hx hmem
      obtain ⟨j, _, _, he⟩ := buildChildItems_ids_mem _ _ _ _ _ _ _ hx
      exact hfresh j (he ▸ hrest_sub x hmem)
    have hchild_not_item : ∀ (kind fid : String) (ns : List String) (k : Nat),
        ∀ x ∈ (buildChildItems kind item.path fid benv.gen_id ns k).map (·.id),
          x ≠ item.id := by
      intro kind fid ns k x hx hEq
      obtain ⟨j, _, _, he⟩ := buildChildItems_ids_mem _ _ _ _ _ _ _ hx
      have hin : benv.gen_id j ∈ qpIds q := by
        rw [← he, hEq]
        exact hitem_mem
      exact hfresh j hin
    have hFB_disj : ∀ fid : String,
        ∀ x ∈ (buildChildItems "file" item.path fid benv.gen_id
            benv.scan_files 0).map (·.id),
          x ∉ (buildChildItems "folder" item.path fid benv.gen_id
            benv.scan_subfolders benv.scan_files.length).map (·.id) := by
      intro fid x hx hy
      obtain ⟨j1, _, hj1u, he1⟩ := buildChildItems_ids_mem _ _ _ _ _ _ _ hx
      obtain ⟨j2, hj2l, _, he2⟩ := buildChildItems_ids_mem _ _ _ _ _ _ _ hy
      have : j1 = j2 := hinj (he1.symm.trans he2)
      omega
    have hchildren : ∀ fid : String,
        ((buildChildItems "file" item.path fid benv.gen_id benv.scan_files 0).map (·.id)
          ++ (buildChildItems "folder" item.path fid benv.gen_id benv.scan_subfolders
                benv.scan_files.length).map (·.id)
          ++ (pre.map (·.id) ++ post.map (·.id))).Nodup := by
      intro fid
      refine nodup_append3 (buildChildItems_ids_nodup _ _ _ _ hinj _ _)
        (buildChildItems_ids_nodup _ _ _ _ hinj _ _) hrest_nodup
        (hFB_disj fid) ?_ ?_
      · exact hchild_not_rest "file" fid benv.scan_files 0
      · exact hchild_not_rest "folder" fid benv.scan_subfolders benv.scan_files.length
    unfold InvQP qpIds queueIds
    rcases hproc with hpz | hpz | hpz
    case _ =>
      rw [hpz, hq1pn]
      simp only [Option.toList_none, List.append_nil]
      rcases hitems with hi | ⟨fid, hi⟩
      · rw [hi, hq1i]
        simp only [List.map_append]
        exact hrest_nodup
      · rw [hi, hq1i]
        simp only [List.map_append]
        exact hchildren fid
    case _ =>
      rw [hpz]
      simp only [Option.toList_none, List.append_nil]
      rcases hitems with hi | ⟨fid, hi⟩
      · rw [hi, hq1i]
        simp only [List.map_append]
        exact hrest_nodup
      · rw [hi, hq1i]
        simp only [List.map_append]
        exact hchildren fid
    case _ =>
      rw [hpz]
      simp only [Option.toList_some]
      rcases hitems with hi | ⟨fid, hi⟩
      · rw [hi, hq1i]
        simp only [List.map_append]
        exact nodup_append_one hrest_nodup hitem_not
      · rw [hi, hq1i]
        simp only [List.map_append]
        refine nodup_append_one (hchildren fid) ?_
        intro hmm
        rcases List.mem_append.mp hmm with hmm | hmm
        · rcases List.mem_append.mp hmm with hmm | hmm
          · exact hchild_not_item "file" fid benv.scan_files 0 item.id hmm rfl
          · exact hchild_not_item "folder" fid benv.scan_subfolders
              benv.scan_files.length item.id hmm rfl
        · exact hitem_not hmm

theorem InvQP_reachable {s : TransferQueue} (h : Reachable s) : InvQP s := by
  induction h with
  | init now => simp [InvQP, qpIds, queueIds, TransferQueue.new]
  | step _ hs ih => exact InvQP_step ih hs

/-! ## Event classifiers and small helper lemmas -/

/-- Recogniser for `init-file-upload` emissions. -/
def isInitFileUploadEv : Event → Bool
  | .initFileUpload .. => true
  | _ => false

/-- Recogniser for `create-folder` emissions. -/
def isCreateFolderEv : Event → Bool
  | .createFolder .. => true
  | _ => false

/-- Recogniser for upload-URL slot registrations. -/
def isRegisterUrlSlotEv : Event → Bool
  | .registerUrlSlot _ => true
  | _ => false

/-- Recogniser for folder slot registrations. -/
def isRegisterFolderSlotEv : Event → Bool
  | .registerFolderSlot _ => true
  | _ => false

/-- Recogniser for `block-complete` emissions. -/
def isBlockCompleteEv : Event → Bool
  | .blockComplete .. => true
  | _ => false

theorem mem_insertS (x : String) (s : List String) : x ∈ insertS x s := by
  unfold insertS
  split
  · assumption
  · exact List.mem_cons_self x s

theorem listHasLead_append_of (p : List Char) :
    ∀ (a t : List Char), listHasLead p a = true → listHasLead p (a ++ t) = true := by
  induction p with
  | nil => intro a t _; rfl
  | cons c cs ih =>
    intro a t h
    cases a with
    | nil => simp [listHasLead] at h
    | cons d ds =>
      simp only [listHasLead, Bool.and_eq_true] at h
      simp only [List.cons_append, listHasLead, Bool.and_eq_true]
      exact ⟨h.1, ih ds t h.2⟩

theorem strContains_of_lead (s pat : String) (h : listHasLead pat.data s.data = true) :
    strContains s pat = true := by
  unfold strContains
  cases hd : s.data with
  | nil => rw [hd] at h; simpa [strContainsAux] using h
  | cons c rest =>
    rw [hd] at h
    simp [strContainsAux, h]

/-! ## Claim theorems -/

/-- C6: the nonce used to encrypt block `i` is 12 bytes whose leading 8
bytes are the big-endian encoding of `i` and whose remaining bytes are
zero; consequently the nonce of block 0 equals the fixed all-zero
12-byte nonce used for thumbnail encryption under the same content
key. -/
theorem c6_block_nonce_layout (i : Nat) :
    blockNonceBytes i = toBeBytes8 i ++ List.replicate 4 0 ∧
    (blockNonceBytes i).length = 12 ∧
    blockNonceBytes 0 = thumbnailNonceBytes := by
  refine ⟨?_, by simp [blockNonceBytes], by decide⟩
  have h12 : List.range 12 = [0, 1, 2, 3, 4, 5, 6, 7, 8, 9, 10, 11] := rfl
  have h8 : List.range 8 = [0, 1, 2, 3, 4, 5, 6, 7] := rfl
  unfold blockNonceBytes toBeBytes8
  rw [h12, h8]
  simp [List.getD]

/-- C10: the per-block size computation `current_block_size` never
underflows and equals `min block_size (file_size - index * block_size)`
whenever the presigned URL satisfies `index * block_size < file_size`;
without that precondition (which the code never validates) the u64
subtraction underflows, e.g. at index 2, block size 4, file size 4. -/
theorem c10_block_size_underflow :
    (∀ index block_size file_size : Nat,
      index * block_size < file_size →
      currentBlockSize index block_size file_size =
        some (min block_size (file_size - index * block_size))) ∧
    currentBlockSize 2 4 4 = none := by
  refine ⟨?_, by decide⟩
  intro i bs fs h
  unfold currentBlockSize
  by_cases hc : i * bs + bs > fs
  · rw [if_pos hc, if_pos (Nat.le_of_lt h)]
    have hmin : min bs (fs - i * bs) = fs - i * bs := by
      rw [Nat.min_def]
      split <;> omega
    rw [hmin]
  · rw [if_neg hc]
    have hmin : min bs (fs - i * bs) = bs := by
      rw [Nat.min_def]
      split <;> omega
    rw [hmin]

/-- C10 witness: at index 1, block size 4, file size 10 the precondition
holds and the computed size is `min 4 6 = 4`. -/
theorem c10_block_size_underflow_witness :
    (1 : Nat) * 4 < 10 ∧
    currentBlockSize 1 4 10 = some (min 4 (10 - 1 * 4)) :=
  ⟨by decide, c10_block_size_underflow.1 1 4 10 (by decide)⟩

/-- C7: calling `finalize_transfer_complete` on an id not yet completed
inserts the id into `completed` and clears the processing slot, and the
resulting state does not depend on the `success` flag; on an id already
completed it returns with no state change and no event. -/
theorem c7_finalize_completion (q : TransferQueue) (tid fid : String)
    (success : Bool) (err : Option String) :
    (tid ∉ q.completed →
      tid ∈ (finalize_transfer_complete q tid fid success err).1.completed ∧
      (finalize_transfer_complete q tid fid success err).1.processing = none ∧
      (finalize_transfer_complete q tid fid success err).1 =
        (finalize_transfer_complete q tid fid true err).1) ∧
    (tid ∈ q.completed →
      finalize_transfer_complete q tid fid success err = (q, [])) := by
  constructor
  · intro hn
    unfold finalize_transfer_complete
    simp only [hn, if_false]
    simp [mem_insertS]
  · intro hy
    unfold finalize_transfer_complete
    simp only [hy, if_true]

/-- C7 witness: finalizing the fresh queue with an unseen id and
`success = false` completes it and clears the slot. -/
theorem c7_finalize_completion_witness :
    "t" ∈ (finalize_transfer_complete (TransferQueue.new 0) "t" "f" false none).1.completed ∧
    (finalize_transfer_complete (TransferQueue.new 0) "t" "f" false none).1.processing = none ∧
    finalize_transfer_complete
      (finalize_transfer_complete (TransferQueue.new 0) "t" "f" false none).1
        "t" "f" false none =
      ((finalize_transfer_complete (TransferQueue.new 0) "t" "f" false none).1, []) := by
  refine ⟨?_, ?_, ?_⟩
  · exact ((c7_finalize_completion (TransferQueue.new 0) "t" "f" false none).1
      (by decide)).1
  · exact ((c7_finalize_completion (TransferQueue.new 0) "t" "f" false none).1
      (by decide)).2.1
  · exact (c7_finalize_completion
      (finalize_transfer_complete (TransferQueue.new 0) "t" "f" false none).1
      "t" "f" false none).2 (by decide)

/-- C5: a block upload is attempted while `retry_count < 3`; it fails
for the item exactly when the first three attempts all fail, with sleeps
of `1000 * retry_count` ms (1s, 2s, 3s) after the failed attempts; and
in the block loop the exhaustion of these retries is what fails the
whole transfer with "Upload failed after 3 retries". -/
theorem c5_upload_retry_policy :
    (∀ attempt : Nat → Bool, uploadBlock attempt =
      if attempt 0 then (true, 0, [])
      else if attempt 1 then (true, 1, [1000])
      else if attempt 2 then (true, 2, [1000, 2000])
      else (false, 3, [1000, 2000, 3000])) ∧
    (∀ (env : FileEnv) (item : QueueItem) (sfi : String) (urls : List PresignedUrl)
        (u : PresignedUrl) (pos : Nat) (q : TransferQueue),
      q.processing.isNone = false → q.paused = false →
      env.seek_ok pos = true → env.read_ok pos = true → env.encrypt_ok pos = true →
      env.upload_attempt pos 0 = false → env.upload_attempt pos 1 = false →
      env.upload_attempt pos 2 = false →
      (processBlocksLoop env item sfi (u :: urls) pos q).2.2 =
        .failed "Upload failed after 3 retries") := by
  constructor
  · intro attempt
    by_cases a0 : attempt 0 = true
    · simp [uploadBlock, uploadGo, a0]
    · by_cases a1 : attempt 1 = true
      · simp [uploadBlock, uploadGo, a0, a1]
      · by_cases a2 : attempt 2 = true
        · simp [uploadBlock, uploadGo, a0, a1, a2]
        · simp [uploadBlock, uploadGo, a0, a1, a2]
  · intro env item sfi urls u pos q hpn hpa hse hre hen h0 h1 h2
    have hu : (uploadBlock (env.upload_attempt pos)).1 = false := by
      simp [uploadBlock, uploadGo, h0, h1, h2]
    simp [processBlocksLoop, hpn, hpa, hse, hre, hen, hu]

/-- The C5 witness state: a transfer in flight. -/
def c5wQ : TransferQueue := { TransferQueue.new 0 with processing := some "p5" }

/-- The C5 witness environment: I/O succeeds, every upload attempt
fails. -/
def c5wEnv : FileEnv :=
  { file_exists := true, metadata_ok := true, file_size := 8, is_image := false
    url_outcome := .timeout, thumb_gen_ok := false, thumb_encrypt_ok := false
    thumb_upload_ok := false, open_ok := true, seek_ok := fun _ => true
    read_ok := fun _ => true, encrypt_ok := fun _ => true
    upload_attempt := fun _ _ => false, now := 0 }

/-- The C5 witness item. -/
def c5wItem : QueueItem :=
  { item_type := "file", id := "w5", path := "/r/y.bin", name := "y.bin"
    parent_id := "root", depth := 0 }

/-- The C5 witness presigned URL. -/
def c5wUrl : PresignedUrl :=
  { url := "https://u", block_id := "b5", index := 0, expires_in := 100 }

/-- C5 witness: with all three attempts failing, the loop fails the item
with "Upload failed after 3 retries" after sleeps of 1s, 2s, 3s. -/
theorem c5_upload_retry_policy_witness :
    uploadBlock (fun _ => false) = (false, 3, [1000, 2000, 3000]) ∧
    (processBlocksLoop c5wEnv c5wItem "sf" [c5wUrl] 0 c5wQ).2.2 =
      .failed "Upload failed after 3 retries" :=
  ⟨(c5_upload_retry_policy.1 (fun _ => false)).trans (by decide),
   c5_upload_retry_policy.2 c5wEnv c5wItem "sf" [] c5wUrl 0 c5wQ
     rfl rfl rfl rfl rfl rfl rfl rfl⟩

/-- C8: a 0-byte file fails immediately with an error whose message
contains "File is empty"; the failure is recorded in the `failed` map,
and no `init-file-upload` negotiation request is ever emitted for the
item. -/
theorem c8_empty_file_rejected (q : TransferQueue) (item : QueueItem) (env : FileEnv)
    (sid : String) (hex : env.file_exists = true) (hmet : env.metadata_ok = true)
    (hsz : env.file_size = 0) :
    (process_file q item env sid).2.2 =
      .error ("File is empty (0 bytes): " ++ item.path) ∧
    strContains ("File is empty (0 bytes): " ++ item.path) "File is empty" = true ∧
    (item.id, "File is empty (0 bytes): " ++ item.path) ∈
      (process_file q item env sid).1.failed ∧
    (process_file q item env sid).2.1.filter isInitFileUploadEv = [] := by
  refine ⟨?_, ?_, ?_, ?_⟩
  · simp [process_file, hex, hmet, hsz]
  · refine strContains_of_lead _ _ ?_
    rw [String.data_append]
    exact listHasLead_append_of _ _ _ (by decide)
  · simp [process_file, hex, hmet, hsz, handle_file_error, insertM]
  · simp [process_file, hex, hmet, hsz, handle_file_error, isInitFileUploadEv]

/-- C8 witness: a concrete 0-byte file at "/r/empty.bin". -/
theorem c8_empty_file_rejected_witness :
    ({ file_exists := true, metadata_ok := true, file_size := 0, is_image := false
       url_outcome := .timeout, thumb_gen_ok := false, thumb_encrypt_ok := false
       thumb_upload_ok := false, open_ok := false, seek_ok := fun _ => false
       read_ok := fun _ => false, encrypt_ok := fun _ => false
       upload_attempt := fun _ _ => false, now := 0 } : FileEnv).file_size = 0 ∧
    (process_file (TransferQueue.new 0)
        { item_type := "file", id := "w8", path := "/r/empty.bin", name := "empty.bin"
          parent_id := "root", depth := 0 }
        { file_exists := true, metadata_ok := true, file_size := 0, is_image := false
          url_outcome := .timeout, thumb_gen_ok := false, thumb_encrypt_ok := false
          thumb_upload_ok := false, open_ok := false, seek_ok := fun _ => false
          read_ok := fun _ => false, encrypt_ok := fun _ => false
          upload_attempt := fun _ _ => false, now := 0 } "s").2.2 =
      .error ("File is empty (0 bytes): " ++ "/r/empty.bin") :=
  ⟨rfl,
    (c8_empty_file_rejected (TransferQueue.new 0)
      { item_type := "file", id := "w8", path := "/r/empty.bin", name := "empty.bin"
        parent_id := "root", depth := 0 }
      { file_exists := true, metadata_ok := true, file_size := 0, is_image := false
        url_outcome := .timeout, thumb_gen_ok := false, thumb_encrypt_ok := false
        thumb_upload_ok := false, open_ok := false, seek_ok := fun _ => false
        read_ok := fun _ => false, encrypt_ok := fun _ => false
        upload_attempt := fun _ _ => false, now := 0 } "s" rfl rfl rfl).1⟩

/-- C9: replaying a block whose compound key is already in
`block_completion_sent` emits no second block-complete notification (and
leaves the state unchanged); re-processing a file already in
`initialized_files` emits no `init-file-upload`; re-processing a folder
already in `initialized_folders` emits no `create-folder`. -/
theorem c9_duplicate_suppression :
    (∀ (q : TransferQueue) (bid : String) (idx : Nat),
      blockKey bid idx ∈ q.block_completion_sent →
      blockCompletionGuard q (blockKey bid idx) = (q, false)) ∧
    (∀ (q : TransferQueue) (item : QueueItem) (env : FileEnv) (sid : String),
      item.id ∈ q.initialized_files →
      (process_file q item env sid).2.1.filter isInitFileUploadEv = []) ∧
    (∀ (q : TransferQueue) (item : QueueItem) (env : FolderEnv) (sid : String),
      item.id ∈ q.initialized_folders →
      (process_folder q item env sid).2.1.filter isCreateFolderEv = []) := by
  refine ⟨?_, ?_, ?_⟩
  · intro q bid idx h
    unfold blockCompletionGuard
    simp [h]
  · intro q item env sid h
    by_cases h1 : env.file_exists = false
    · simp [process_file, h1]
    · by_cases h2 : env.metadata_ok = false
      · simp [process_file, h1, h2]
      · by_cases h3 : env.file_size = 0
        · simp [process_file, h1, h2, h3, handle_file_error, isInitFileUploadEv]
        · by_cases h5 : item.id ∈ q.completed
          · simp [process_file, h1, h2, h3, h, h5]
          · simp [process_file, h1, h2, h3, h, h5]
  · intro q item env sid h
    by_cases h1 : env.dir_exists = false
    · simp [process_folder, h1]
    · by_cases h2 : item.id ∈ q.completed
      · simp [process_folder, h1, h, h2]
      · simp [process_folder, h1, h, h2]

/-- C9 witness: a concrete already-sent block key, an already-initialized
file, and an already-initialized folder. -/
theorem c9_duplicate_suppression_witness :
    blockCompletionGuard
        { TransferQueue.new 0 with block_completion_sent := ["b1:0"] } (blockKey "b1" 0) =
      ({ TransferQueue.new 0 with block_completion_sent := ["b1:0"] }, false) ∧
    (process_file { TransferQueue.new 0 with initialized_files := ["w9"] }
        { item_type := "file", id := "w9", path := "/r/x.bin", name := "x.bin"
          parent_id := "root", depth := 0 }
        { file_exists := true, metadata_ok := true, file_size := 4, is_image := false
          url_outcome := .timeout, thumb_gen_ok := false, thumb_encrypt_ok := false
          thumb_upload_ok := false, open_ok := false, seek_ok := fun _ => false
          read_ok := fun _ => false, encrypt_ok := fun _ => false
          upload_attempt := fun _ _ => false, now := 0 } "s").2.1.filter
      isInitFileUploadEv = [] ∧
    (process_folder { TransferQueue.new 0 with initialized_folders := ["w9f"] }
        { item_type := "folder", id := "w9f", path := "/r/d", name := "d"
          parent_id := "root", depth := 0 }
        { dir_exists := true, folder_outcome := .timeout, scan_ok := false
          scan_files := [], scan_subfolders := [], gen_id := fun _ => "g", now := 0 }
        "s").2.1.filter isCreateFolderEv = [] :=
  ⟨c9_duplicate_suppression.1 _ "b1" 0 (by decide),
   c9_duplicate_suppression.2.1 _ _ _ "s" (by decide),
   c9_duplicate_suppression.2.2 _ _ _ "s" (by decide)⟩

/-- C1 (code bug): in `process_folder` the `create-folder` request (trace
index 1) is emitted before the oneshot response slot is registered
(trace index 2), so a reply arriving in between is dropped; in
`process_file` the registration (index 1) correctly precedes the
`init-file-upload` emission (index 2). -/
theorem c1_folder_request_emitted_before_slot :
    ((process_folder (TransferQueue.new 0)
        { item_type := "folder", id := "f1", path := "/r/a", name := "a"
          parent_id := "root", depth := 0 }
        { dir_exists := true, folder_outcome := .success "sf1", scan_ok := true
          scan_files := [], scan_subfolders := [], gen_id := fun _ => "g", now := 0 }
        "s").2.1.findIdx? isCreateFolderEv = some 1 ∧
      (process_folder (TransferQueue.new 0)
        { item_type := "folder", id := "f1", path := "/r/a", name := "a"
          parent_id := "root", depth := 0 }
        { dir_exists := true, folder_outcome := .success "sf1", scan_ok := true
          scan_files := [], scan_subfolders := [], gen_id := fun _ => "g", now := 0 }
        "s").2.1.findIdx? isRegisterFolderSlotEv = some 2) ∧
    ((process_file (TransferQueue.new 0)
        { item_type := "file", id := "u1", path := "/r/x.bin", name := "x.bin"
          parent_id := "root", depth := 0 }
        { file_exists := true, metadata_ok := true, file_size := 4, is_image := false
          url_outcome := .timeout, thumb_gen_ok := false, thumb_encrypt_ok := false
          thumb_upload_ok := false, open_ok := false, seek_ok := fun _ => false
          read_ok := fun _ => false, encrypt_ok := fun _ => false
          upload_attempt := fun _ _ => false, now := 0 }
        "s").2.1.findIdx? isRegisterUrlSlotEv = some 1 ∧
      (process_file (TransferQueue.new 0)
        { item_type := "file", id := "u1", path := "/r/x.bin", name := "x.bin"
          parent_id := "root", depth := 0 }
        { file_exists := true, metadata_ok := true, file_size := 4, is_image := false
          url_outcome := .timeout, thumb_gen_ok := false, thumb_encrypt_ok := false
          thumb_upload_ok := false, open_ok := false, seek_ok := fun _ => false
          read_ok := fun _ => false, encrypt_ok := fun _ => false
          upload_attempt := fun _ _ => false, now := 0 }
        "s").2.1.findIdx? isInitFileUploadEv = some 2) := by
  decide

/-- C2 counterexample: a folder dequeued unconditionally from the head of
the queue is *not* inserted into `pending_folders` (it stays empty),
contradicting the claim that every chosen folder is so recorded. -/
theorem c2_head_folder_pending_not_inserted :
    dequeueNext { TransferQueue.new 0 with items :=
        [{ item_type := "folder", id := "d1", path := "/r/a", name := "a"
           parent_id := "root", depth := 0 }] } =
      some ({ item_type := "folder", id := "d1", path := "/r/a", name := "a"
              parent_id := "root", depth := 0 },
            TransferQueue.new 0) ∧
    "/r/a" ∉ (TransferQueue.new 0).pending_folders := by
  decide

/-- C2 (amended): only a folder selected by the forward scan has its path
inserted into `pending_folders`; a folder dequeued unconditionally from
the head leaves `pending_folders` unchanged. -/
theorem c2_pending_insertion_scan_only (q : TransferQueue) :
    (∀ first rest, q.items = first :: rest → first.item_type = "folder" →
      dequeueNext q = some (first, { q with items := rest }) ∧
      ({ q with items := rest } : TransferQueue).pending_folders =
        q.pending_folders) ∧
    (∀ first rest item q', q.items = first :: rest →
      first.item_type ≠ "folder" →
      parentPathStr first.path ∈ q.pending_folders →
      dequeueNext q = some (item, q') → item.item_type = "folder" →
      item.path ∈ q'.pending_folders) := by
  constructor
  · intro first rest hq hft
    refine ⟨?_, rfl⟩
    simp [dequeueNext, hq, hft]
  · intro first rest item q' hq hft hp hd hfolder
    simp only [dequeueNext, hq, hft, if_false, hp, if_true] at hd
    rcases hs : scanSplit q.pending_folders (first :: rest) with _ | ⟨⟨pre, c, post⟩⟩
    · rw [hs] at hd
      cases hd
    · rw [hs] at hd
      simp only [Option.some.injEq, Prod.mk.injEq] at hd
      obtain ⟨h1, h2⟩ := hd
      subst h1
      subst h2
      simp only [hfolder, if_true]
      exact mem_insertS _ _

/-- Concrete queue for the C2 witness: a head file whose parent path is
pending, followed by a ready folder that the forward scan selects. -/
def c2wFile : QueueItem :=
  { item_type := "file", id := "cf", path := "/p/q/f.txt", name := "f.txt"
    parent_id := "root", depth := 0 }

/-- The folder taken by the forward scan in the C2 witness. -/
def c2wFolder : QueueItem :=
  { item_type := "folder", id := "cd", path := "/p/b", name := "b"
    parent_id := "root", depth := 0 }

/-- The C2 witness state. -/
def c2wQ : TransferQueue :=
  { TransferQueue.new 0 with items := [c2wFile, c2wFolder], pending_folders := ["/p/q"] }

/-- C2 witness: in `c2wQ` the scan selects the folder and its path lands
in `pending_folders`. -/
theorem c2_pending_insertion_scan_only_witness :
    c2wQ.items = c2wFile :: [c2wFolder] ∧
    c2wFolder.path ∈
      ({ c2wQ with items := [c2wFile], pending_folders := ["/p/b", "/p/q"] } :
        TransferQueue).pending_folders :=
  ⟨by decide,
   (c2_pending_insertion_scan_only c2wQ).2 c2wFile [c2wFolder] c2wFolder
     { c2wQ with items := [c2wFile], pending_folders := ["/p/b", "/p/q"] }
     (by decide) (by decide) (by decide) (by decide) (by decide)⟩

/-- C3 counterexample: after `finalize_transfer_complete` on "a" followed
by `cancel_transfer "a"`, the reachable state holds "a" in `completed`
and in `failed` simultaneously, refuting the claimed mutual exclusivity
of {queue, processing, completed, failed}. -/
theorem c3_completed_failed_overlap :
    Reachable (cancel_transfer "a"
      (finalize_transfer_complete (TransferQueue.new 0) "a" "f" true none).1) ∧
    "a" ∈ (cancel_transfer "a"
      (finalize_transfer_complete (TransferQueue.new 0) "a" "f" true none).1).completed ∧
    "a" ∈ ((cancel_transfer "a"
      (finalize_transfer_complete (TransferQueue.new 0) "a" "f" true none).1).failed.map
        (·.1)) := by
  refine ⟨?_, by decide, by decide⟩
  exact Reachable.step
    (Reachable.step (Reachable.init 0) (Step.finalize (TransferQueue.new 0) "a" "f" true none))
    (Step.cancelOne _ "a")

/-- C3 (amended): under every sequence of the public operations, an id is
in at most one of the items queue and the processing slot; the
exclusivity does not extend to `completed` / `failed` (see the
counterexample). -/
theorem c3_queue_processing_exclusive (s : TransferQueue) (h : Reachable s)
    (id : String) : ¬(id ∈ queueIds s ∧ s.processing = some id) := by
  rintro ⟨hq, hp⟩
  have hinv := InvQP_reachable h
  unfold InvQP qpIds at hinv
  have hdisj := List.disjoint_of_nodup_append hinv
  refine hdisj hq ?_
  rw [hp]
  simp

/-- C3 witness: the fresh queue is reachable and excludes "x". -/
theorem c3_queue_processing_exclusive_witness :
    ¬("x" ∈ queueIds (TransferQueue.new 0) ∧
      (TransferQueue.new 0).processing = some "x") :=
  c3_queue_processing_exclusive (TransferQueue.new 0) (Reachable.init 0) "x"

/-- C4: a successful folder expansion rebuilds the queue as the folder's
child files (in enumeration order), then its child subfolders, then all
pre-existing items in their previous relative order. -/
theorem c4_expansion_order (q : TransferQueue) (item : QueueItem) (env : FolderEnv)
    (sid fid : String)
    (hdir : env.dir_exists = true)
    (hini : item.id ∉ q.initialized_folders)
    (hrecv : item.id ∉ q.received_folder_responses)
    (hout : env.folder_outcome = .success fid)
    (hscan : env.scan_ok = true) :
    (process_folder q item env sid).1.items =
      buildChildItems "file" item.path fid env.gen_id env.scan_files 0
      ++ buildChildItems "folder" item.path fid env.gen_id env.scan_subfolders
          env.scan_files.length
      ++ q.items := by
  by_cases hn : item.id ∈ q.completion_notifications_sent
  · simp [process_folder, hdir, hini, hrecv, hout, hscan, hn, folderFinish,
      expandEnqueue_items, expandEnqueue_sent]
  · simp [process_folder, hdir, hini, hrecv, hout, hscan, hn, folderFinish,
      expandEnqueue_items, expandEnqueue_sent]

/-- The C4 witness state: one pre-existing queued file. -/
def c4Q : TransferQueue :=
  { TransferQueue.new 0 with items :=
      [{ item_type := "file", id := "old1", path := "/z/o.txt", name := "o.txt"
         parent_id := "root", depth := 0 }] }

/-- The folder expanded in the C4 witness. -/
def c4Item : QueueItem :=
  { item_type := "folder", id := "fd", path := "/r/a", name := "a"
    parent_id := "root", depth := 0 }

/-- The C4 witness environment: two child files and one subfolder. -/
def c4Env : FolderEnv :=
  { dir_exists := true, folder_outcome := .success "srv1", scan_ok := true
    scan_files := ["f1.txt", "f2.txt"], scan_subfolders := ["g"]
    gen_id := fun k => "n" ++ toString k, now := 0 }

/-- C4 witness: the concrete expansion of `c4Item` over `c4Q`. -/
theorem c4_expansion_order_witness :
    (process_folder c4Q c4Item c4Env "s").1.items =
      buildChildItems "file" c4Item.path "srv1" c4Env.gen_id c4Env.scan_files 0
      ++ buildChildItems "folder" c4Item.path "srv1" c4Env.gen_id c4Env.scan_subfolders
          c4Env.scan_files.length
      ++ c4Q.items :=
  c4_expansion_order c4Q c4Item c4Env "s" "srv1" rfl (by decide) (by decide) rfl rfl

end CirrusSync
